import Mathlib

/-!
Shallow embedding of the FIRRTL peephole fold / canonicalization engine
(FIRRTLFolds.cpp) and verification of its specification claims.

Widths and signedness are modelled explicitly; the unknown width sentinel
of the source (`getWidthOrSentinel() == -1`) is modelled by `Option Nat`.
IR value identity is modelled by natural-number identifiers where a rule
compares values; constants are modelled by an explicit width-tagged
arbitrary-precision payload mirroring `llvm::APInt`.
-/

set_option autoImplicit false

/-- Signedness of a FIRRTL integer type. -/
inductive Signedness where
  | signed : Signedness
  | unsigned : Signedness
deriving DecidableEq, Repr

/-- FIRRTL integer type: signedness plus width, `none` when the width is
statically unknown. -/
structure IntType where
  sign : Signedness
  width : Option Nat
deriving DecidableEq, Repr

/-- Mirrors `IntType::getWidthOrSentinel`: the width, or `-1` when unknown. -/
def IntType.getWidthOrSentinel (t : IntType) : Int :=
  match t.width with
  | some w => (w : Int)
  | none => -1

/-- Mirrors `IntType::isSigned`. -/
def IntType.isSigned (t : IntType) : Bool :=
  match t.sign with
  | Signedness.signed => true
  | Signedness.unsigned => false

/-- Mirrors `IntType::isUnsigned`. -/
def IntType.isUnsigned (t : IntType) : Bool :=
  match t.sign with
  | Signedness.signed => false
  | Signedness.unsigned => true

/-- Width-tagged arbitrary-precision payload, mirroring `llvm::APInt`.
The payload is interpreted modulo `2 ^ width`. -/
structure APIntV where
  width : Nat
  value : Nat
deriving DecidableEq, Repr

/-- Two-complement interpretation of the payload (mirrors `APInt` signed view). -/
def APIntV.toInt (a : APIntV) : Int :=
  if 2 * (a.value % 2 ^ a.width) < 2 ^ a.width then ((a.value % 2 ^ a.width : Nat) : Int)
  else ((a.value % 2 ^ a.width : Nat) : Int) - 2 ^ a.width

/-- Logical right shift, zero filling (mirrors `APInt::lshr`). -/
def APIntV.lshr (a : APIntV) (s : Nat) : APIntV :=
  ⟨a.width, (a.value % 2 ^ a.width) >>> s⟩

/-- Arithmetic right shift, sign filling (mirrors `APInt::ashr` for shifts
below the width): floor division of the signed view by `2 ^ s`, re-encoded
in two-complement form. -/
def APIntV.ashr (a : APIntV) (s : Nat) : APIntV :=
  ⟨a.width, ((a.toInt.fdiv (2 ^ s)).emod (2 ^ a.width)).toNat⟩

/-- Mirrors `APInt::truncOrSelf`: truncate to `w` low bits when `w` is
smaller than the current width, otherwise return the value unchanged. -/
def APIntV.truncOrSelf (a : APIntV) (w : Nat) : APIntV :=
  if a.width ≤ w then a else ⟨w, a.value % 2 ^ w⟩

/-- Mirrors `APInt::isNullValue` on a matched constant operand. -/
def isConstZero (c : Option APIntV) : Bool :=
  match c with
  | some v => v.value % 2 ^ v.width == 0
  | none => false

/-- Mirrors `APInt::isOneValue` on a matched constant operand. -/
def isConstOne (c : Option APIntV) : Bool :=
  match c with
  | some v => v.value % 2 ^ v.width == 1
  | none => false

/-- Result of a successful fold: either an existing IR value returned
unchanged (an operand of the operation), or a fresh constant attribute. -/
inductive FoldResult where
  | value : FoldResult
  | const : APIntV → FoldResult
deriving DecidableEq, Repr

/-- Mirrors `constFoldBinaryOp<IntegerAttr>`: folds only when both operands
are known constant attributes. -/
def constFoldBinaryOp (ops : Option APIntV × Option APIntV) (f : Nat → Nat → Nat) :
    Option FoldResult :=
  match ops with
  | (some a, some b) => some (FoldResult.const ⟨a.width, f a.value b.value % 2 ^ a.width⟩)
  | _ => none

/-- Mirrors `DivPrimOp::fold`.  Arguments: the result type, whether the two
operands are the same IR value, the constant payload of the right operand
when it is a constant, and whether the left operand type equals the result
type. -/
def DivPrimOp.fold (resType : IntType) (lhsEqRhs : Bool) (rhsConst : Option APIntV)
    (lhsTyEqRes : Bool) : Option FoldResult :=
  if lhsEqRhs then
    let w : Int := resType.getWidthOrSentinel
    let w2 : Int := if w = -1 then 2 else w
    some (FoldResult.const ⟨w2.toNat, 1⟩)
  else if isConstOne rhsConst && lhsTyEqRes then
    some FoldResult.value
  else
    none

/-- Mirrors `XorPrimOp::fold`.  Arguments: the result type, whether the two
operands are the same IR value, the matched constant of the right operand,
whether the left operand type equals the result type, and the constant
attributes of both operands as handed to the folder. -/
def XorPrimOp.fold (resType : IntType) (lhsEqRhs : Bool) (rhsConst : Option APIntV)
    (lhsTyEqRes : Bool) (ops : Option APIntV × Option APIntV) : Option FoldResult :=
  if isConstZero rhsConst && lhsTyEqRes then
    some FoldResult.value
  else if lhsEqRhs then
    let w : Nat := resType.getWidthOrSentinel.natAbs
    if w ≠ 0 then some (FoldResult.const ⟨w, 0⟩)
    else constFoldBinaryOp ops Nat.xor
  else
    constFoldBinaryOp ops Nat.xor

/-- Mirrors `ShrPrimOp::fold`.  Arguments: the input type, the shift amount
attribute, and the matched constant of the input when it is a constant. -/
def ShrPrimOp.fold (inputType : IntType) (amount : Nat) (inputConst : Option APIntV) :
    Option FoldResult :=
  if amount = 0 then some FoldResult.value
  else
    match inputType.width with
    | none => none
    | some w =>
      if w ≤ amount ∧ inputType.isUnsigned = true then
        some (FoldResult.const ⟨1, 0⟩)
      else
        match inputConst with
        | some v =>
          let v2 := if inputType.isSigned = false then v.lshr (min amount w)
                    else v.ashr (min amount (w - 1))
          some (FoldResult.const (v2.truncOrSelf (max (w - amount) 1)))
        | none => none

/-- C1: for every divide whose two operands are the same IR value — the
shared operand constant or not, zero or not (`rhsConst` ranges over all
possibilities, including a constant zero) — the fold returns the constant 1
and never the no-fold answer. -/
theorem divPrimOp_fold_self (t : IntType) (rhsConst : Option APIntV) (b : Bool) :
    ∃ w : Nat, DivPrimOp.fold t true rhsConst b = some (FoldResult.const ⟨w, 1⟩) := by
  unfold DivPrimOp.fold
  cases h : t.width with
  | none =>
      refine ⟨2, ?_⟩
      simp [IntType.getWidthOrSentinel, h]
  | some w =>
      refine ⟨w, ?_⟩
      simp [IntType.getWidthOrSentinel, h]

/-- C6: for an xor whose two operands are the same non-constant IR value
and whose result width is statically known, the fold returns the all-zero
constant of the result width exactly when that width is positive, and is
skipped (falls through to the no-fold answer) when the result width is 0,
so no zero-bit constant is materialized. -/
theorem xorPrimOp_fold_self_guard (sg : Signedness) (w : Nat) (b : Bool) :
    (0 < w → XorPrimOp.fold ⟨sg, some w⟩ true none b (none, none) =
        some (FoldResult.const ⟨w, 0⟩)) ∧
    (w = 0 → XorPrimOp.fold ⟨sg, some w⟩ true none b (none, none) = none) := by
  constructor
  · intro hw
    unfold XorPrimOp.fold
    simp [isConstZero, IntType.getWidthOrSentinel]
    omega
  · intro hw
    subst hw
    unfold XorPrimOp.fold
    simp [isConstZero, IntType.getWidthOrSentinel, constFoldBinaryOp]

/-- Witness for C6 at result widths 4 and 0. -/
theorem xorPrimOp_fold_self_guard_witness :
    XorPrimOp.fold ⟨Signedness.unsigned, some 4⟩ true none false (none, none) =
      some (FoldResult.const ⟨4, 0⟩) ∧
    XorPrimOp.fold ⟨Signedness.unsigned, some 0⟩ true none false (none, none) = none :=
  ⟨(xorPrimOp_fold_self_guard Signedness.unsigned 4 false).1 (by decide),
   (xorPrimOp_fold_self_guard Signedness.unsigned 0 false).2 rfl⟩

/-- C2: shift-right fold.  A zero shift amount returns the input unchanged;
a shift amount at least the known input width of an unsigned input folds to
the 1-bit constant 0; a constant unsigned input with amount below the width
is logically shifted and truncated to width minus amount; a constant signed
input is arithmetically shifted with the shift capped at width minus one
and truncated to the result width `max (width - amount) 1`. -/
theorem shrPrimOp_fold_spec :
    (∀ (t : IntType) (c : Option APIntV), ShrPrimOp.fold t 0 c = some FoldResult.value) ∧
    (∀ (w s : Nat) (c : Option APIntV), w ≤ s → s ≠ 0 →
        ShrPrimOp.fold ⟨Signedness.unsigned, some w⟩ s c =
          some (FoldResult.const ⟨1, 0⟩)) ∧
    (∀ (w s : Nat) (v : APIntV), s ≠ 0 → s < w →
        ShrPrimOp.fold ⟨Signedness.unsigned, some w⟩ s (some v) =
          some (FoldResult.const ((v.lshr s).truncOrSelf (w - s)))) ∧
    (∀ (w s : Nat) (v : APIntV), s ≠ 0 →
        ShrPrimOp.fold ⟨Signedness.signed, some w⟩ s (some v) =
          some (FoldResult.const ((v.ashr (min s (w - 1))).truncOrSelf (max (w - s) 1)))) := by
  refine ⟨?_, ?_, ?_, ?_⟩
  · intro t c
    unfold ShrPrimOp.fold
    simp
  · intro w s c hws hs
    unfold ShrPrimOp.fold
    simp [hs, IntType.isUnsigned, hws]
  · intro w s v hs hsw
    unfold ShrPrimOp.fold
    have h1 : ¬(w ≤ s ∧ (IntType.isUnsigned ⟨Signedness.unsigned, some w⟩) = true) := by
      simp [IntType.isUnsigned]; omega
    simp [hs, h1, IntType.isSigned, Nat.min_eq_left (Nat.le_of_lt hsw)]
    have h2 : max (w - s) 1 = w - s := by omega
    rw [h2]
  · intro w s v hs
    unfold ShrPrimOp.fold
    simp [hs, IntType.isUnsigned, IntType.isSigned]

/-- Witness for C2: a signed 4-bit constant 0b1100 (that is, -4) shifted
right by 2 folds to the 2-bit constant 0b11 (that is, -1). -/
theorem shrPrimOp_fold_spec_witness :
    ShrPrimOp.fold ⟨Signedness.signed, some 4⟩ 2 (some ⟨4, 12⟩) =
      some (FoldResult.const ⟨2, 3⟩) := by
  have h := shrPrimOp_fold_spec.2.2.2 4 2 ⟨4, 12⟩ (by decide)
  rw [h]
  decide

/-- A bits (extract) operation in the operand-defining chain: the IR value
identity of its input, and the inclusive hi and lo bounds. -/
structure BitsOpDef where
  input : Nat
  hi : Nat
  lo : Nat
deriving DecidableEq, Repr

/-- Mirrors the `matchAndRewrite` of the `BitsPrimOp` canonicalization
pattern.  Argument `innerDef` is the defining operation of the input when
it is itself a bits operation; `hi` and `lo` are the bounds of the outer
operation.  Returns the replacement bits operation, or `none` on failure. -/
def BitsPrimOp.matchAndRewrite (innerDef : Option BitsOpDef) (hi lo : Nat) :
    Option BitsOpDef :=
  match innerDef with
  | some inner =>
      let newLo := lo + inner.lo
      let newHi := newLo + hi - lo
      some ⟨inner.input, newHi, newLo⟩
  | none => none

/-- C3: canonicalizing a nested extract always produces a single extract on
the inner source whose high bound is `lo1 + hi2` and whose low bound is
`lo1 + lo2`, for all bound values. -/
theorem bitsPrimOp_canonicalize_compose (x hi1 lo1 hi2 lo2 : Nat) :
    BitsPrimOp.matchAndRewrite (some ⟨x, hi1, lo1⟩) hi2 lo2 =
      some ⟨x, lo1 + hi2, lo1 + lo2⟩ := by
  unfold BitsPrimOp.matchAndRewrite
  simp [BitsOpDef.mk.injEq]
  omega

/-- Reference semantics of extract-bits on a payload: keep the inclusive
range from bit `lo` to bit `hi` (bit 0 least significant). -/
def extractSem (v hi lo : Nat) : Nat :=
  (v >>> lo) % 2 ^ (hi - lo + 1)

/-- C4 counterexample: the concrete nested extract of bits 2 down to 1 of
the extract of bits 7 down to 4 of `x` canonicalizes to the extract of
bits 6 down to 5, not to the extract of bits 5 down to 4. -/
theorem bits_of_bits_concrete_counterexample :
    BitsPrimOp.matchAndRewrite (some ⟨0, 7, 4⟩) 2 1 = some ⟨0, 6, 5⟩ ∧
    BitsPrimOp.matchAndRewrite (some ⟨0, 7, 4⟩) 2 1 ≠ some ⟨0, 5, 4⟩ := by
  decide

/-- C4 amended: for every source `x`, canonicalization turns
`bits(bits(x,7,4),2,1)` into `bits(x,6,5)`, and this is the semantically
correct single extract: on every payload `v`, extracting bits 2 down to 1
of bits 7 down to 4 equals extracting bits 6 down to 5. -/
theorem bits_of_bits_concrete (x v : Nat) :
    BitsPrimOp.matchAndRewrite (some ⟨x, 7, 4⟩) 2 1 = some ⟨x, 6, 5⟩ ∧
    extractSem (extractSem v 7 4) 2 1 = extractSem v 6 5 := by
  constructor
  · unfold BitsPrimOp.matchAndRewrite
    simp
  · unfold extractSem
    simp [Nat.shiftRight_eq_div_pow]
    omega

/-- Mirrors the `matchAndRewrite` of the `CatPrimOp` canonicalization
pattern.  Arguments are the defining operations of the two operands when
they are bits operations.  The bound arithmetic on the adjacency test is
32-bit unsigned, as in the source. -/
def CatPrimOp.matchAndRewrite (lhsDef rhsDef : Option BitsOpDef) :
    Option BitsOpDef :=
  match lhsDef, rhsDef with
  | some l, some r =>
      if l.input = r.input ∧ (l.lo + (4294967296 - 1)) % 4294967296 = r.hi then
        some ⟨l.input, l.hi, r.lo⟩
      else none
  | _, _ => none

/-- C5: concatenating two extracts of the same source with adjacent bounds
(the left low bound is one above the right high bound) canonicalizes to
the single extract spanning both ranges. -/
theorem catPrimOp_canonicalize_adjacent (x hi mid lo : Nat) (h : mid + 1 < 4294967296) :
    CatPrimOp.matchAndRewrite (some ⟨x, hi, mid + 1⟩) (some ⟨x, mid, lo⟩) =
      some ⟨x, hi, lo⟩ := by
  unfold CatPrimOp.matchAndRewrite
  have hcond : (mid + 1 + (4294967296 - 1)) % 4294967296 = mid := by omega
  simp [hcond]

/-- Witness for C5: `cat(bits(x,7,4), bits(x,3,0))` becomes `bits(x,7,0)`. -/
theorem catPrimOp_canonicalize_adjacent_witness :
    CatPrimOp.matchAndRewrite (some ⟨0, 7, 4⟩) (some ⟨0, 3, 0⟩) =
      some ⟨0, 7, 0⟩ :=
  catPrimOp_canonicalize_adjacent 0 7 3 0 (by norm_num)

/-- The chain of operations emitted by `replaceWithBits`: an optional
extract with its bounds, an optional reinterpretation cast with its target
signedness, and the type of the final replacement value. -/
structure ReplacementChain where
  bitsEmitted : Option (Nat × Nat)
  castEmitted : Option Signedness
  finalType : IntType
deriving DecidableEq, Repr

/-- Mirrors `replaceWithBits`: compares the value width against the result
type width to decide whether an extract is needed (the created bits
operation has unsigned type of width `hi - lo + 1`), then appends an
as-signed or as-unsigned cast when the signedness of the running value
still differs from the result type. -/
def replaceWithBits (resType valueType : IntType) (hi lo : Nat) : ReplacementChain :=
  let widthDiffers : Bool := valueType.width ≠ resType.width
  let bitsEmitted : Option (Nat × Nat) := if widthDiffers then some (hi, lo) else none
  let vTy : IntType :=
    if widthDiffers then ⟨Signedness.unsigned, some (hi - lo + 1)⟩ else valueType
  if resType.isSigned && !vTy.isSigned then
    ⟨bitsEmitted, some Signedness.signed, resType⟩
  else if resType.isUnsigned && !vTy.isUnsigned then
    ⟨bitsEmitted, some Signedness.unsigned, resType⟩
  else
    ⟨bitsEmitted, none, vTy⟩

/-- C9: whenever the requested slice width equals the declared result
width (as at every call site of the helper), the replacement chain ends at
exactly the declared result type; the extract is emitted precisely when
the slice width differs from the current value width, and a cast is
appended precisely when the signedness of the sliced value differs from
the declared result signedness. -/
theorem replaceWithBits_type_preserving (resType valueType : IntType) (hi lo : Nat)
    (h : resType.width = some (hi - lo + 1)) :
    (replaceWithBits resType valueType hi lo).finalType = resType ∧
    ((replaceWithBits resType valueType hi lo).bitsEmitted = some (hi, lo) ↔
        valueType.width ≠ resType.width) ∧
    ((replaceWithBits resType valueType hi lo).castEmitted.isSome = true ↔
        (if valueType.width = resType.width then valueType.sign
         else Signedness.unsigned) ≠ resType.sign) := by
  obtain ⟨rs, rw⟩ := resType
  obtain ⟨vs, vw⟩ := valueType
  simp only at h
  subst h
  unfold replaceWithBits
  cases rs <;> cases vs <;>
    by_cases hw : vw = some (hi - lo + 1) <;>
    simp_all [IntType.isSigned, IntType.isUnsigned]

/-- Witness for C9: an unsigned 8-bit value sliced to bits 4 down to 2 for
a signed 3-bit result type ends at exactly the signed 3-bit type. -/
theorem replaceWithBits_type_preserving_witness :
    (replaceWithBits ⟨Signedness.signed, some 3⟩ ⟨Signedness.unsigned, some 8⟩ 4 2).finalType =
      ⟨Signedness.signed, some 3⟩ :=
  (replaceWithBits_type_preserving ⟨Signedness.signed, some 3⟩
    ⟨Signedness.unsigned, some 8⟩ 4 2 (by norm_num)).1

/-- Mirrors the `matchAndRewrite` of the `HeadPrimOp` canonicalization
pattern.  The outer `Option` is the match result (`none` for failure); the
inner `Option` records the replacement actually committed, `none` when the
pattern returned success without touching the graph. -/
def HeadPrimOp.matchAndRewrite (inputType : IntType) (amount : Nat) (resType : IntType) :
    Option (Option ReplacementChain) :=
  match inputType.width with
  | none => none
  | some w =>
      if amount ≠ 0 then
        some (some (replaceWithBits resType inputType (w - 1) (w - amount)))
      else
        some none

/-- Mirrors the `matchAndRewrite` of the `TailPrimOp` canonicalization
pattern, with the same result encoding as for take-head. -/
def TailPrimOp.matchAndRewrite (inputType : IntType) (amount : Nat) (resType : IntType) :
    Option (Option ReplacementChain) :=
  match inputType.width with
  | none => none
  | some w =>
      if amount ≠ w then
        some (some (replaceWithBits resType inputType (w - amount - 1) 0))
      else
        some none

/-- Mirrors the `matchAndRewrite` of the `ShrPrimOp` canonicalization
pattern.  Every success here commits a replacement, so the result is the
committed chain or `none` for failure. -/
def ShrPrimOp.matchAndRewrite (inputType : IntType) (amount : Nat) (resType : IntType) :
    Option ReplacementChain :=
  match inputType.width with
  | none => none
  | some w =>
      if w ≤ amount then
        if resType.isUnsigned then none
        else some (replaceWithBits resType inputType (w - 1) (w - 1))
      else
        some (replaceWithBits resType inputType (w - 1) amount)

/-- C8: the take-head pattern with keep amount 0 and the take-tail pattern
dropping the full known input width both report success (matched) while
committing no replacement, leaving the graph untouched — contradicting the
contract that a rule reports matched only when it has mutated the graph. -/
theorem canon_noop_reports_matched :
    HeadPrimOp.matchAndRewrite ⟨Signedness.unsigned, some 8⟩ 0
        ⟨Signedness.unsigned, some 0⟩ = some none ∧
    TailPrimOp.matchAndRewrite ⟨Signedness.unsigned, some 8⟩ 8
        ⟨Signedness.unsigned, some 0⟩ = some none := by
  decide

/-- C10: with a known input width `w`, the shift-right canonicalization
rewrites through the coercion helper with bounds `(w - 1, s)` whenever the
shift amount `s` is below `w` (any signedness), with bounds
`(w - 1, w - 1)` when `s` reaches or exceeds `w` and the result type is
signed, and bails out (leaving the shift to the fold) exactly when `s`
reaches or exceeds `w` and the result type is unsigned. -/
theorem shrPrimOp_canonicalize_spec (inSg : Signedness) (w s : Nat) (resType : IntType) :
    (s < w → ShrPrimOp.matchAndRewrite ⟨inSg, some w⟩ s resType =
        some (replaceWithBits resType ⟨inSg, some w⟩ (w - 1) s)) ∧
    (w ≤ s → resType.isUnsigned = false →
        ShrPrimOp.matchAndRewrite ⟨inSg, some w⟩ s resType =
          some (replaceWithBits resType ⟨inSg, some w⟩ (w - 1) (w - 1))) ∧
    (w ≤ s → resType.isUnsigned = true →
        ShrPrimOp.matchAndRewrite ⟨inSg, some w⟩ s resType = none) := by
  refine ⟨?_, ?_, ?_⟩
  · intro hsw
    unfold ShrPrimOp.matchAndRewrite
    simp
    omega
  · intro hws hu
    unfold ShrPrimOp.matchAndRewrite
    simp [hws, hu]
  · intro hws hu
    unfold ShrPrimOp.matchAndRewrite
    simp [hws, hu]

/-- Witness for C10: an 8-bit signed shift right by 3 rewrites to the
slice of bits 7 down to 3, and an 8-bit unsigned shift right by 9 bails. -/
theorem shrPrimOp_canonicalize_spec_witness :
    ShrPrimOp.matchAndRewrite ⟨Signedness.signed, some 8⟩ 3 ⟨Signedness.signed, some 5⟩ =
      some (replaceWithBits ⟨Signedness.signed, some 5⟩ ⟨Signedness.signed, some 8⟩ 7 3) ∧
    ShrPrimOp.matchAndRewrite ⟨Signedness.unsigned, some 8⟩ 9 ⟨Signedness.unsigned, some 1⟩ =
      none :=
  ⟨(shrPrimOp_canonicalize_spec Signedness.signed 8 3 ⟨Signedness.signed, some 5⟩).1
      (by norm_num),
   (shrPrimOp_canonicalize_spec Signedness.unsigned 8 9 ⟨Signedness.unsigned, some 1⟩).2.2
      (by norm_num) rfl⟩

/-- C7 counterexample: a divide whose operands are the same IR value and
whose result width is unknown does NOT return the no-fold answer — it
folds to the constant 1 materialized at width 2. -/
theorem unknown_width_div_counterexample :
    DivPrimOp.fold ⟨Signedness.unsigned, none⟩ true none false =
      some (FoldResult.const ⟨2, 1⟩) ∧
    DivPrimOp.fold ⟨Signedness.unsigned, none⟩ true none false ≠ none := by
  decide

/-- C7 amended: with an unknown input width, the take-head, take-tail and
shift-right canonicalizations report no-match and the shift-right fold of a
nonzero amount returns no-fold; but the divide self-fold still produces the
constant 1 at width 2, and the xor self-fold still produces the 1-bit zero
constant, even though the result width is unknown. -/
theorem unknown_width_behavior :
    (∀ (sg : Signedness) (amt : Nat) (resType : IntType),
        HeadPrimOp.matchAndRewrite ⟨sg, none⟩ amt resType = none) ∧
    (∀ (sg : Signedness) (amt : Nat) (resType : IntType),
        TailPrimOp.matchAndRewrite ⟨sg, none⟩ amt resType = none) ∧
    (∀ (sg : Signedness) (amt : Nat) (resType : IntType),
        ShrPrimOp.matchAndRewrite ⟨sg, none⟩ amt resType = none) ∧
    (∀ (sg : Signedness) (s : Nat) (c : Option APIntV), s ≠ 0 →
        ShrPrimOp.fold ⟨sg, none⟩ s c = none) ∧
    (∀ (sg : Signedness) (rc : Option APIntV) (b : Bool),
        DivPrimOp.fold ⟨sg, none⟩ true rc b = some (FoldResult.const ⟨2, 1⟩)) ∧
    (∀ (sg : Signedness) (b : Bool),
        XorPrimOp.fold ⟨sg, none⟩ true none b (none, none) =
          some (FoldResult.const ⟨1, 0⟩)) := by
  refine ⟨?_, ?_, ?_, ?_, ?_, ?_⟩
  · intro sg amt resType
    unfold HeadPrimOp.matchAndRewrite
    rfl
  · intro sg amt resType
    unfold TailPrimOp.matchAndRewrite
    rfl
  · intro sg amt resType
    unfold ShrPrimOp.matchAndRewrite
    rfl
  · intro sg s c hs
    unfold ShrPrimOp.fold
    simp [hs]
  · intro sg rc b
    unfold DivPrimOp.fold
    simp [IntType.getWidthOrSentinel]
  · intro sg b
    unfold XorPrimOp.fold
    simp [isConstZero, IntType.getWidthOrSentinel]

/-- Witness for C7 amended, at concrete inputs for the conjuncts that
carry hypotheses. -/
theorem unknown_width_behavior_witness :
    HeadPrimOp.matchAndRewrite ⟨Signedness.unsigned, none⟩ 3
        ⟨Signedness.unsigned, some 3⟩ = none ∧
    ShrPrimOp.fold ⟨Signedness.signed, none⟩ 2 none = none ∧
    DivPrimOp.fold ⟨Signedness.signed, none⟩ true none false =
      some (FoldResult.const ⟨2, 1⟩) :=
  ⟨unknown_width_behavior.1 Signedness.unsigned 3 ⟨Signedness.unsigned, some 3⟩,
   unknown_width_behavior.2.2.2.1 Signedness.signed 2 none (by decide),
   unknown_width_behavior.2.2.2.2.1 Signedness.signed none false⟩
